import Mathlib

/-!
# Verification of the author-registry verifier

A shallow embedding of `.github/scripts/verify_authors.py`, the CI script
that cross-checks `authors.yaml` and `registry.yaml`:

1. every author key must be a reachable GitHub handle,
2. every declared `website` / `avatar` URL must be reachable
   (URLs containing `x.com` are skipped),
3. every author referenced by a registry entry must be defined in the
   authors file.

Network effects are modelled by an oracle mapping each request URL to the
outcome of the HTTP HEAD request (a status code or a raised
`requests.RequestException` carrying a message).  The fallible parts of
`main` (the script raises an uncaught `TypeError` when an author's details
value is YAML `null`) are modelled with `Except`.
-/

/-- Outcome of one HTTP HEAD request: either a response with a status code,
or a transport error (`requests.RequestException`) carrying its message. -/
inductive HttpResult where
  | status (code : Nat)
  | exn (msg : String)
deriving DecidableEq, Repr

/-- The remote state seen by the run: a map from request URL to the outcome
of the HTTP HEAD request issued for it. -/
abbrev Net := String → HttpResult

/-- `listStarts pat s` is true when `pat` is a prefix of `s`
(character-by-character comparison, as Python substring search does). -/
def listStarts : List Char → List Char → Bool
  | [], _ => true
  | _ :: _, [] => false
  | p :: ps, c :: cs => p == c && listStarts ps cs

/-- `listIn pat s` is Python's `pat in s` on character lists: `pat` occurs
as a contiguous subsequence of `s`. -/
def listIn (pat : List Char) : List Char → Bool
  | [] => pat.isEmpty
  | c :: rest => listStarts pat (c :: rest) || listIn pat rest

/-- Python's substring test `pat in s` on strings. -/
def strIn (pat s : String) : Bool := listIn pat.data s.data

/-- `check_github_handle(username)` from the source: issues a HEAD request
to `https://github.com/{username}`; 404 maps to "GitHub profile not found",
any other status ≥ 400 to "HTTP {code}", a transport error to its message,
anything else to success. -/
def check_github_handle (net : Net) (username : String) : Bool × Option String :=
  match net ("https://github.com/" ++ username) with
  | .status code =>
      if code == 404 then (false, some "GitHub profile not found")
      else if 400 ≤ code then (false, some ("HTTP " ++ toString code))
      else (true, none)
  | .exn e => (false, some e)

/-- `check_url(url)` from the source, returning the result pair together
with the list of request URLs actually issued (empty when the `x.com`
short-circuit fires, so that "no network call" is expressible).  The
source tests `if 'x.com' in url`, a substring test on the whole URL. -/
def check_url (net : Net) (url : String) : (Bool × Option String) × List String :=
  if strIn "x.com" url then ((true, some "skipped (x.com)"), [])
  else
    ((match net url with
      | .status code =>
          if 400 ≤ code then (false, some ("HTTP " ++ toString code))
          else (true, none)
      | .exn e => (false, some e)), [url])

/-- The YAML value attached to one author key in `authors.yaml`: either
`null` (a bare `alice:` line) or a mapping with optional `website` and
`avatar` string fields.  (The script only ever reads those two keys.) -/
inductive Details where
  | null
  | fields (website : Option String) (avatar : Option String)
deriving DecidableEq, Repr

/-- One entry of `registry.yaml`: a mapping with an optional `authors`
field holding a list of author handles. -/
structure RegistryEntry where
  authors : Option (List String)
deriving DecidableEq, Repr

/-- Python's `str` on an optional string, as used by the f-strings that
format failure reasons (`str(None) = "None"`). -/
def pyStr : Option String → String
  | some s => s
  | none => "None"

/-- Pass 1 of `main`: for every key of the authors mapping, in iteration
order, check the GitHub handle and record `"{username} ({error})"` on
failure. -/
def pass1 (net : Net) : List (String × Details) → List String
  | [] => []
  | (username, _) :: rest =>
      (if (check_github_handle net username).1 then []
       else [username ++ " (" ++ pyStr (check_github_handle net username).2 ++ ")"]) ++
      pass1 net rest

/-- One optional URL field inside pass 2: if present, check it and record
`"{username}.{field}: {url} ({error})"` on failure; a successful check
(including a skipped one) records nothing. -/
def check_field (net : Net) (username fieldName : String) : Option String → List String
  | none => []
  | some url =>
      if (check_url net url).1.1 then []
      else [username ++ "." ++ fieldName ++ ": " ++ url ++ " (" ++
            pyStr (check_url net url).1.2 ++ ")"]

/-- Pass 2 for a single author: `'website' in details` / `'avatar' in
details` raise a `TypeError` when the details value is `null`; otherwise
the two optional URL fields are checked in order. -/
def pass2Author (net : Net) (username : String) : Details → Except String (List String)
  | .null => .error "TypeError: argument of type NoneType is not iterable"
  | .fields website avatar =>
      .ok (check_field net username "website" website ++
           check_field net username "avatar" avatar)

/-- Pass 2 of `main`: URL checks for every `(username, details)` pair in
iteration order, stopping with the raised error if some details value is
`null`. -/
def pass2 (net : Net) : List (String × Details) → Except String (List String)
  | [] => .ok []
  | (username, details) :: rest =>
      match pass2Author net username details with
      | .error e => .error e
      | .ok fs =>
          match pass2 net rest with
          | .error e => .error e
          | .ok rs => .ok (fs ++ rs)

/-- The collection loop of pass 3: all handles referenced by any registry
entry's `authors` field, in occurrence order (entries without the field
contribute nothing). -/
def collectRegistryAuthors : List RegistryEntry → List String
  | [] => []
  | e :: rest =>
      (match e.authors with
       | some l => l
       | none => []) ++ collectRegistryAuthors rest

/-- Python's `sorted(registry_authors)` where `registry_authors` is a set:
the distinct referenced handles in sorted lexical order. -/
def sortedRegistryAuthors (registry : List RegistryEntry) : List String :=
  List.insertionSort (· ≤ ·) (collectRegistryAuthors registry).dedup

/-- Pass 3 of `main`: every referenced handle, in sorted lexical order,
that is not a key of the authors mapping. -/
def pass3 (authorsKeys : List String) (registry : List RegistryEntry) : List String :=
  (sortedRegistryAuthors registry).filter (fun a => !authorsKeys.contains a)

/-- The observable outcome of a completed run: the three failure lists,
the process exit code, and whether the final success message was printed. -/
structure RunResult where
  failed_handles : List String
  failed_urls : List String
  missing_authors : List String
  exitCode : Nat
  printedSuccess : Bool
deriving DecidableEq, Repr

/-- `main()` from the source, as a function of the remote state and the two
parsed YAML files: run the three passes in order, then exit 1 when any
failure list is non-empty and print the success message and exit 0
otherwise.  An uncaught `TypeError` in pass 2 aborts the run
(`Except.error`).  (Named `verifyMain` because Lean reserves `main` for an
entry point; it embeds the script's `main()`.) -/
def verifyMain (net : Net) (authors : List (String × Details))
    (registry : List RegistryEntry) : Except String RunResult :=
  let failed_handles := pass1 net authors
  match pass2 net authors with
  | .error e => .error e
  | .ok failed_urls =>
      let missing_authors := pass3 (authors.map Prod.fst) registry
      let hasFailures :=
        !failed_handles.isEmpty || !failed_urls.isEmpty || !missing_authors.isEmpty
      .ok ⟨failed_handles, failed_urls, missing_authors,
           if hasFailures then 1 else 0, !hasFailures⟩

example : strIn "x.com" "https://x.com/eve" = true := by decide
example : strIn "x.com" "https://max.com/a" = true := by decide
example : strIn "x.com" "https://example.org/x.com-notes" = true := by decide
example : strIn "x.com" "https://example.org/a" = false := by decide

/-- A list starts with itself followed by anything. -/
theorem listStarts_self_append (pat b : List Char) : listStarts pat (pat ++ b) = true := by
  induction pat with
  | nil => simp [listStarts]
  | cons p ps ih => simp [listStarts, ih]

/-- A pattern occurring contiguously in the middle of a list is found by
`listIn`. -/
theorem listIn_middle (a pat b : List Char) : listIn pat (a ++ pat ++ b) = true := by
  induction a with
  | nil =>
      cases pat with
      | nil => cases b <;> simp [listIn, listStarts]
      | cons p ps =>
          simp only [List.nil_append, List.cons_append, listIn, Bool.or_eq_true]
          exact Or.inl (listStarts_self_append (p :: ps) b)
  | cons c a' ih =>
      simp only [List.cons_append, listIn, Bool.or_eq_true]
      right
      simpa using ih

/-- A pattern occurring contiguously in the middle of a string is found by
Python's substring test. -/
theorem strIn_middle (a pat b : String) : strIn pat (a ++ pat ++ b) = true := by
  unfold strIn
  rw [String.data_append, String.data_append]
  exact listIn_middle a.data pat.data b.data

/-- C3: whenever the HEAD request for `https://github.com/{H}` yields
status 404, `check_github_handle` returns ok=false with reason exactly
"GitHub profile not found". -/
theorem github_handle_not_found (net : Net) (username : String)
    (h : net ("https://github.com/" ++ username) = .status 404) :
    check_github_handle net username = (false, some "GitHub profile not found") := by
  simp [check_github_handle, h]

theorem github_handle_not_found_witness :
    (fun _ => HttpResult.status 404 : Net) ("https://github.com/" ++ "ghost") =
      HttpResult.status 404 ∧
    check_github_handle (fun _ => HttpResult.status 404) "ghost" =
      (false, some "GitHub profile not found") :=
  ⟨rfl, github_handle_not_found (fun _ => HttpResult.status 404) "ghost" rfl⟩

/-- C4: whenever a performed HTTP check returns a status code C ≥ 400
(other than 404 for the handle check; any such status for the plain URL
check), the reason is exactly "HTTP {C}". -/
theorem http_error_reason (net : Net) :
    (∀ username code, net ("https://github.com/" ++ username) = .status code →
      400 ≤ code → code ≠ 404 →
      check_github_handle net username = (false, some ("HTTP " ++ toString code))) ∧
    (∀ url code, strIn "x.com" url = false → net url = .status code → 400 ≤ code →
      (check_url net url).1 = (false, some ("HTTP " ++ toString code))) := by
  constructor
  · intro username code h h4 hne
    simp [check_github_handle, h, hne, h4]
  · intro url code hx h h4
    simp [check_url, hx, h, h4]

theorem http_error_reason_witness :
    check_github_handle (fun _ => HttpResult.status 500) "gone" =
      (false, some ("HTTP " ++ toString 500)) ∧
    (check_url (fun _ => HttpResult.status 500) "https://dead.example/a").1 =
      (false, some ("HTTP " ++ toString 500)) :=
  ⟨(http_error_reason _).1 "gone" 500 rfl (by decide) (by decide),
   (http_error_reason _).2 "https://dead.example/a" 500 (by decide) rfl (by decide)⟩

/-- C5: a URL whose host is `x.com` (that is, whose text is
`{scheme}://x.com{rest}`) is skipped: ok=true, reason "skipped (x.com)",
and no network request is issued. -/
theorem url_host_xcom_skipped (net : Net) (scheme rest url : String)
    (h : url = scheme ++ "://x.com" ++ rest) :
    check_url net url = ((true, some "skipped (x.com)"), []) := by
  have hx : strIn "x.com" url = true := by
    subst h
    unfold strIn
    rw [String.data_append, String.data_append]
    have hd : ("://x.com" : String).data = ("://" : String).data ++ ("x.com" : String).data := by
      decide
    rw [hd]
    simp only [← List.append_assoc]
    exact listIn_middle (scheme.data ++ ("://" : String).data) ("x.com" : String).data rest.data
  simp [check_url, hx]

theorem url_host_xcom_skipped_witness :
    ("https://x.com/eve" : String) = "https" ++ "://x.com" ++ "/eve" ∧
    check_url (fun _ => HttpResult.status 200) "https://x.com/eve" =
      ((true, some "skipped (x.com)"), []) :=
  ⟨by decide,
   url_host_xcom_skipped (fun _ => HttpResult.status 200) "https" "/eve"
     "https://x.com/eve" (by decide)⟩

/-- C9: any URL containing "x.com" anywhere as a substring (a host such as
`max.com`, or an occurrence in the path) is skipped with ok=true, reason
"skipped (x.com)", and no network request. -/
theorem url_xcom_substring_skipped (net : Net) (url : String)
    (h : strIn "x.com" url = true) :
    check_url net url = ((true, some "skipped (x.com)"), []) := by
  simp [check_url, h]

theorem url_xcom_substring_skipped_witness :
    strIn "x.com" "https://max.com/a" = true ∧
    check_url (fun _ => HttpResult.status 200) "https://max.com/a" =
      ((true, some "skipped (x.com)"), []) :=
  ⟨by decide,
   url_xcom_substring_skipped (fun _ => HttpResult.status 200) "https://max.com/a"
     (by decide)⟩

/-- Pass 2 raises the `TypeError` whenever some author's details value is
`null`, wherever that author sits in iteration order. -/
theorem pass2_error_of_null (net : Net) (authors : List (String × Details))
    (h : ∃ p ∈ authors, p.2 = Details.null) :
    pass2 net authors = .error "TypeError: argument of type NoneType is not iterable" := by
  induction authors with
  | nil => simp at h
  | cons p rest ih =>
      obtain ⟨u, d⟩ := p
      cases d with
      | null => simp [pass2, pass2Author]
      | fields w a =>
          obtain ⟨q, hq, hqn⟩ := h
          rcases List.mem_cons.mp hq with rfl | hmem
          · simp at hqn
          · simp [pass2, pass2Author, ih ⟨q, hmem, hqn⟩]

/-- C10: whenever any key of the authors file maps to a YAML `null`
details value, the membership test in pass 2 raises an uncaught
`TypeError` and the run aborts after pass 1 instead of completing all
three passes. -/
theorem null_details_aborts (net : Net) (authors : List (String × Details))
    (registry : List RegistryEntry) (h : ∃ p ∈ authors, p.2 = Details.null) :
    verifyMain net authors registry =
      .error "TypeError: argument of type NoneType is not iterable" := by
  unfold verifyMain
  rw [pass2_error_of_null net authors h]

theorem null_details_aborts_witness :
    (∃ p ∈ [("alice", Details.fields none none), ("bob", Details.null)],
        p.2 = Details.null) ∧
    verifyMain (fun _ => HttpResult.status 200)
        [("alice", Details.fields none none), ("bob", Details.null)] [] =
      .error "TypeError: argument of type NoneType is not iterable" :=
  ⟨by decide,
   null_details_aborts (fun _ => HttpResult.status 200)
     [("alice", Details.fields none none), ("bob", Details.null)] [] (by decide)⟩

/-- A handle is collected from the registry iff some entry's `authors`
field mentions it. -/
theorem mem_collectRegistryAuthors (a : String) (registry : List RegistryEntry) :
    a ∈ collectRegistryAuthors registry ↔
      ∃ e ∈ registry, ∃ l, e.authors = some l ∧ a ∈ l := by
  induction registry with
  | nil => simp [collectRegistryAuthors]
  | cons e rest ih =>
      cases he : e.authors with
      | none => simp [collectRegistryAuthors, he, ih, List.mem_cons]
      | some l => simp [collectRegistryAuthors, he, ih, List.mem_cons]

/-- Sorting the deduplicated collection does not change membership. -/
theorem mem_sortedRegistryAuthors (a : String) (registry : List RegistryEntry) :
    a ∈ sortedRegistryAuthors registry ↔ a ∈ collectRegistryAuthors registry := by
  unfold sortedRegistryAuthors
  rw [List.mem_insertionSort, List.mem_dedup]

/-- The referenced-handles list used by pass 3 is sorted. -/
theorem sorted_sortedRegistryAuthors (registry : List RegistryEntry) :
    List.Sorted (· ≤ ·) (sortedRegistryAuthors registry) :=
  List.sorted_insertionSort _ _

/-- The referenced-handles list used by pass 3 has no duplicates. -/
theorem nodup_sortedRegistryAuthors (registry : List RegistryEntry) :
    (sortedRegistryAuthors registry).Nodup :=
  ((List.perm_insertionSort _ _).nodup_iff).mpr (List.nodup_dedup _)

/-- C2: pass 3 reports exactly the handles referenced by some registry
entry's `authors` field that are not keys of the authors mapping — no
more, no fewer — in sorted lexical order and without duplicates; entries
lacking an `authors` field contribute nothing. -/
theorem missing_authors_exact (authors : List (String × Details))
    (registry : List RegistryEntry) :
    (∀ a, a ∈ pass3 (authors.map Prod.fst) registry ↔
        ((∃ e ∈ registry, ∃ l, e.authors = some l ∧ a ∈ l) ∧
         a ∉ authors.map Prod.fst)) ∧
    List.Sorted (· ≤ ·) (pass3 (authors.map Prod.fst) registry) ∧
    (pass3 (authors.map Prod.fst) registry).Nodup := by
  refine ⟨fun a => ?_, ?_, ?_⟩
  · unfold pass3
    rw [List.mem_filter, mem_sortedRegistryAuthors, mem_collectRegistryAuthors]
    constructor
    · rintro ⟨h1, h2⟩
      refine ⟨h1, fun hmem => ?_⟩
      rw [Bool.not_eq_true', ← Bool.not_eq_true] at h2
      exact h2 (List.elem_iff.mpr hmem)
    · rintro ⟨h1, h2⟩
      refine ⟨h1, ?_⟩
      rw [Bool.not_eq_true', ← Bool.not_eq_true]
      exact fun hc => h2 (List.elem_iff.mp hc)
  · exact List.Pairwise.filter _ (sorted_sortedRegistryAuthors registry)
  · exact List.Nodup.filter _ (nodup_sortedRegistryAuthors registry)

/-- The report step of `main`: how the exit code and the success message
are determined by the emptiness of the three failure lists. -/
theorem report_fields (fh fu ma : List String) :
    ((if (!fh.isEmpty || !fu.isEmpty || !ma.isEmpty) then (1 : Nat) else 0) = 1 ↔
       ¬(fh = [] ∧ fu = [] ∧ ma = [])) ∧
    ((if (!fh.isEmpty || !fu.isEmpty || !ma.isEmpty) then (1 : Nat) else 0) = 0 ↔
       (fh = [] ∧ fu = [] ∧ ma = [])) ∧
    ((!(!fh.isEmpty || !fu.isEmpty || !ma.isEmpty)) = true ↔
       (if (!fh.isEmpty || !fu.isEmpty || !ma.isEmpty) then (1 : Nat) else 0) = 0) := by
  cases fh <;> cases fu <;> cases ma <;> simp

/-- C1: a completed run exits with status 1 iff at least one of the three
failure lists is non-empty; otherwise it prints the success message and
exits with status 0. -/
theorem exit_code_iff_failures (net : Net) (authors : List (String × Details))
    (registry : List RegistryEntry) (r : RunResult)
    (h : verifyMain net authors registry = .ok r) :
    (r.exitCode = 1 ↔
      ¬(r.failed_handles = [] ∧ r.failed_urls = [] ∧ r.missing_authors = [])) ∧
    (r.exitCode = 0 ↔
      (r.failed_handles = [] ∧ r.failed_urls = [] ∧ r.missing_authors = [])) ∧
    (r.printedSuccess = true ↔ r.exitCode = 0) := by
  unfold verifyMain at h
  cases hp : pass2 net authors with
  | error e =>
      rw [hp] at h
      cases h
  | ok fu =>
      rw [hp] at h
      simp only [Except.ok.injEq] at h
      subst h
      exact report_fields (pass1 net authors) fu (pass3 (authors.map Prod.fst) registry)

theorem exit_code_iff_failures_witness :
    ((RunResult.mk [] [] [] 0 true).exitCode = 1 ↔
      ¬((RunResult.mk [] [] [] 0 true).failed_handles = [] ∧
        (RunResult.mk [] [] [] 0 true).failed_urls = [] ∧
        (RunResult.mk [] [] [] 0 true).missing_authors = [])) ∧
    ((RunResult.mk [] [] [] 0 true).exitCode = 0 ↔
      ((RunResult.mk [] [] [] 0 true).failed_handles = [] ∧
       (RunResult.mk [] [] [] 0 true).failed_urls = [] ∧
       (RunResult.mk [] [] [] 0 true).missing_authors = [])) ∧
    ((RunResult.mk [] [] [] 0 true).printedSuccess = true ↔
      (RunResult.mk [] [] [] 0 true).exitCode = 0) :=
  exit_code_iff_failures (fun _ => HttpResult.status 200)
    [("alice", Details.fields none none)] [] (RunResult.mk [] [] [] 0 true) rfl

/-- C6: a URL check that comes back ok (in particular a skipped one) is
never appended to the failed-urls list, and a run whose only non-clean
result is a skipped x.com website exits with status 0. -/
theorem skipped_not_failure (net : Net) :
    (∀ username fieldName url,
        (check_url net url).1.1 = true →
        check_field net username fieldName (some url) = []) ∧
    ((check_github_handle net "eve").1 = true →
      verifyMain net [("eve", Details.fields (some "https://x.com/eve") none)] [] =
        .ok ⟨[], [], [], 0, true⟩) := by
  constructor
  · intro username fieldName url h
    simp [check_field, h]
  · intro h
    have hx : strIn "x.com" "https://x.com/eve" = true := by decide
    have h3 : pass3 ["eve"] [] = [] := rfl
    simp [verifyMain, pass1, pass2, pass2Author, check_field, check_url, hx, h, h3]

theorem skipped_not_failure_witness :
    (check_github_handle (fun _ => HttpResult.status 200) "eve").1 = true ∧
    verifyMain (fun _ => HttpResult.status 200)
        [("eve", Details.fields (some "https://x.com/eve") none)] [] =
      .ok ⟨[], [], [], 0, true⟩ :=
  ⟨rfl, (skipped_not_failure (fun _ => HttpResult.status 200)).2 rfl⟩

/-- Pass 2 completes without raising as long as no author's details value
is `null`. -/
theorem pass2_ok_of_no_null (net : Net) (authors : List (String × Details))
    (h : ∀ p ∈ authors, p.2 ≠ Details.null) :
    ∃ fs, pass2 net authors = .ok fs := by
  induction authors with
  | nil => exact ⟨[], rfl⟩
  | cons p rest ih =>
      obtain ⟨u, d⟩ := p
      cases d with
      | null => exact absurd rfl (h (u, Details.null) (List.mem_cons_self _ _))
      | fields w a =>
          obtain ⟨fs, hfs⟩ := ih fun q hq => h q (List.mem_cons_of_mem _ hq)
          exact ⟨check_field net u "website" w ++ check_field net u "avatar" a ++ fs,
                 by simp [pass2, pass2Author, hfs]⟩

/-- C7: a transport error is caught per-check — both check functions
return ok=false carrying the raw error text — and the run still completes
all three passes (no uncaught exception) whenever no details value is
`null`. -/
theorem transport_error_recorded (net : Net) :
    (∀ username e, net ("https://github.com/" ++ username) = .exn e →
      check_github_handle net username = (false, some e)) ∧
    (∀ url e, strIn "x.com" url = false → net url = .exn e →
      (check_url net url).1 = (false, some e)) ∧
    (∀ (authors : List (String × Details)) (registry : List RegistryEntry),
      (∀ p ∈ authors, p.2 ≠ Details.null) →
      ∃ r, verifyMain net authors registry = .ok r) := by
  refine ⟨?_, ?_, ?_⟩
  · intro username e h
    simp [check_github_handle, h]
  · intro url e hx h
    simp [check_url, hx, h]
  · intro authors registry h
    obtain ⟨fs, hfs⟩ := pass2_ok_of_no_null net authors h
    exact ⟨_, by unfold verifyMain; rw [hfs]⟩

theorem transport_error_recorded_witness :
    check_github_handle (fun _ => HttpResult.exn "timeout") "alice" =
      (false, some "timeout") ∧
    (check_url (fun _ => HttpResult.exn "timeout") "https://a.example/").1 =
      (false, some "timeout") ∧
    ∃ r, verifyMain (fun _ => HttpResult.exn "timeout")
        [("alice", Details.fields (some "https://a.example/") none)] [] = .ok r :=
  ⟨(transport_error_recorded _).1 "alice" "timeout" rfl,
   (transport_error_recorded _).2.1 "https://a.example/" "timeout" (by decide) rfl,
   (transport_error_recorded _).2.2 _ _ (by decide)⟩

/-- The request URLs that a `check_url` call on this optional field would
issue (none when the field is absent or the x.com short-circuit fires). -/
def requestedUrls : Option String → List String
  | none => []
  | some url => if strIn "x.com" url then [] else [url]

/-- All request URLs the run issues on behalf of one author: the GitHub
profile URL from pass 1 and the non-skipped website/avatar URLs from
pass 2. -/
def authorTargets : String × Details → List String
  | (username, Details.null) => ["https://github.com/" ++ username]
  | (username, Details.fields w a) =>
      ("https://github.com/" ++ username) :: (requestedUrls w ++ requestedUrls a)

/-- All request URLs the run issues for the given authors mapping. -/
def runTargets : List (String × Details) → List String
  | [] => []
  | p :: rest => authorTargets p ++ runTargets rest

/-- The trace of `check_url` is exactly the requested URL list of its
field. -/
theorem check_url_trace (net : Net) (url : String) :
    (check_url net url).2 = requestedUrls (some url) := by
  cases hx : strIn "x.com" url <;> simp [check_url, requestedUrls, hx]

/-- The handle check depends only on the outcome at its own request URL. -/
theorem check_github_handle_congr (net1 net2 : Net) (username : String)
    (h : net1 ("https://github.com/" ++ username) =
         net2 ("https://github.com/" ++ username)) :
    check_github_handle net1 username = check_github_handle net2 username := by
  unfold check_github_handle
  rw [h]

/-- The URL check depends only on the outcome at its own request URL, and
on nothing at all when the x.com short-circuit fires. -/
theorem check_url_congr (net1 net2 : Net) (url : String)
    (h : strIn "x.com" url = false → net1 url = net2 url) :
    check_url net1 url = check_url net2 url := by
  cases hx : strIn "x.com" url with
  | false => simp [check_url, hx, h hx]
  | true => simp [check_url, hx]

/-- One optional-field check depends only on the outcomes at its requested
URLs. -/
theorem check_field_congr (net1 net2 : Net) (username fieldName : String)
    (v : Option String) (h : ∀ t ∈ requestedUrls v, net1 t = net2 t) :
    check_field net1 username fieldName v = check_field net2 username fieldName v := by
  cases v with
  | none => rfl
  | some url =>
      have hcu : check_url net1 url = check_url net2 url := by
        refine check_url_congr net1 net2 url fun hx => ?_
        exact h url (by simp [requestedUrls, hx])
      simp [check_field, hcu]

/-- One author's pass-2 step depends only on the outcomes at that author's
targets. -/
theorem pass2Author_congr (net1 net2 : Net) (username : String) (d : Details)
    (h : ∀ t ∈ authorTargets (username, d), net1 t = net2 t) :
    pass2Author net1 username d = pass2Author net2 username d := by
  cases d with
  | null => rfl
  | fields w a =>
      have hw : ∀ t ∈ requestedUrls w, net1 t = net2 t := fun t ht =>
        h t (by simp [authorTargets, List.mem_cons, List.mem_append, ht])
      have ha : ∀ t ∈ requestedUrls a, net1 t = net2 t := fun t ht =>
        h t (by simp [authorTargets, List.mem_cons, List.mem_append, ht])
      simp [pass2Author, check_field_congr net1 net2 username "website" w hw,
            check_field_congr net1 net2 username "avatar" a ha]

/-- Pass 1 depends only on the outcomes at the run's targets. -/
theorem pass1_congr (net1 net2 : Net) (authors : List (String × Details))
    (h : ∀ t ∈ runTargets authors, net1 t = net2 t) :
    pass1 net1 authors = pass1 net2 authors := by
  induction authors with
  | nil => rfl
  | cons p rest ih =>
      obtain ⟨u, d⟩ := p
      have hg : net1 ("https://github.com/" ++ u) = net2 ("https://github.com/" ++ u) :=
        h _ (by cases d <;> simp [runTargets, authorTargets])
      have hrest : ∀ t ∈ runTargets rest, net1 t = net2 t := fun t ht =>
        h t (by simp [runTargets, List.mem_append, ht])
      simp [pass1, check_github_handle_congr net1 net2 u hg, ih hrest]

/-- Pass 2 depends only on the outcomes at the run's targets. -/
theorem pass2_congr (net1 net2 : Net) (authors : List (String × Details))
    (h : ∀ t ∈ runTargets authors, net1 t = net2 t) :
    pass2 net1 authors = pass2 net2 authors := by
  induction authors with
  | nil => rfl
  | cons p rest ih =>
      obtain ⟨u, d⟩ := p
      have hhead : ∀ t ∈ authorTargets (u, d), net1 t = net2 t := fun t ht =>
        h t (by simp [runTargets, List.mem_append, ht])
      have hrest : ∀ t ∈ runTargets rest, net1 t = net2 t := fun t ht =>
        h t (by simp [runTargets, List.mem_append, ht])
      simp [pass2, pass2Author_congr net1 net2 u d hhead, ih hrest]

/-- C8: the run is a deterministic function of its input files and the
per-target check outcomes — two runs whose remote outcomes agree on every
request URL the run issues produce identical failure lists, exit code and
success message (pass 3 consults no remote state at all). -/
theorem run_deterministic (net1 net2 : Net) (authors : List (String × Details))
    (registry : List RegistryEntry)
    (h : ∀ t ∈ runTargets authors, net1 t = net2 t) :
    verifyMain net1 authors registry = verifyMain net2 authors registry := by
  simp only [verifyMain, pass1_congr net1 net2 authors h, pass2_congr net1 net2 authors h]

theorem run_deterministic_witness :
    verifyMain (fun _ => HttpResult.status 200)
        [("alice", Details.fields (some "https://a.example/") none)] [] =
      verifyMain
        (fun u => if u = "https://other.example/" then HttpResult.status 500
                  else HttpResult.status 200)
        [("alice", Details.fields (some "https://a.example/") none)] [] :=
  run_deterministic _ _ _ _ (by decide)
